import Mathlib

/-!
# Drawing-Tool scoring engine: a shallow embedding

This file embeds the server-side scoring pipeline of the Drawing-Tool
repository (`server/src/scoring/engine.ts` together with the shared
constants in the types module) into Lean 4 and proves, or refutes, the
specification claims about it.

Conventions of the embedding:

* JavaScript `number` arithmetic is modelled over `ℚ`.  Every constant of
  the engine (thresholds `30`, `200`, `1000`, SSIM constants `6.5025`,
  `58.5225`, breakpoints `1.2`, `0.6`, ...) is an exact decimal, so the
  rational model mirrors the intended real-number semantics of the code.
* A grayscale buffer of height `h` and width `w` (`number[][]` in the
  source) is a total function `Nat → Nat → ℚ` read only at indices
  `y < h`, `x < w`; a binary edge map (`boolean[][]`) is a total function
  `Nat → Nat → Bool` read the same way.
* The only place the source takes a square root is
  `sobelEdge` (`Math.sqrt(gx*gx+gy*gy)`, later compared with the
  binarization threshold 30 after a `min` with 255) and the keypoint
  matcher (`Math.sqrt` of a squared distance, later compared with the
  tolerance).  Both comparisons are monotone images of comparisons of
  squares, so the embedding compares squares; this is noted again at the
  definitions.
-/

namespace DrawingTool

/-- The canonical resolution every image is resized to
(`const TARGET_SIZE = 512`). -/
def TARGET_SIZE : Nat := 512

/-- All `(y, x)` coordinates of an `h × w` grid in row-major order, the
order in which the engine's nested `for` loops visit pixels. -/
def gridList (h w : Nat) : List (Nat × Nat) :=
  (List.range h).flatMap (fun y => (List.range w).map (fun x => (y, x)))

/-- The pixels of an `h × w` binary map that are set, in scan order. -/
def edgeList (h w : Nat) (bin : Nat → Nat → Bool) : List (Nat × Nat) :=
  (gridList h w).filter (fun p => bin p.1 p.2)

/-- Number of set pixels of an `h × w` binary map (`refEdgeCount` /
`sketchEdgeCount` accumulation in `contourF1`). -/
def edgeCount (h w : Nat) (bin : Nat → Nat → Bool) : Nat :=
  (edgeList h w bin).length

/-- The `(dy, dx)` offsets scanned by `contourF1`'s tolerance search, in
the exact lexicographic order of the source's two nested loops
(`dy` from `-tolerance` to `tolerance`, inner `dx` likewise). -/
def scanOffsets (tol : Nat) : List (Int × Int) :=
  ((List.range (2 * tol + 1)).map (fun i => (i : Int) - tol)).flatMap
    (fun dy => ((List.range (2 * tol + 1)).map (fun i => (i : Int) - tol)).map
      (fun dx => (dy, dx)))

/-- For a sketch edge pixel at `(y, x)`, the first reference edge pixel
(as `(ny, nx)`) found by the source's short-circuited tolerance scan:
both loops stop as soon as `found` is set, so only the lexicographically
first in-bounds reference neighbour is reported — and it is the only one
added to `matchedRef`. -/
def firstRefMatch (h w : Nat) (refBin : Nat → Nat → Bool) (tol : Nat)
    (y x : Nat) : Option (Nat × Nat) :=
  (scanOffsets tol).findSome? (fun d =>
    let ny : Int := (y : Int) + d.1
    let nx : Int := (x : Int) + d.2
    if 0 ≤ ny ∧ ny < (h : Int) ∧ 0 ≤ nx ∧ nx < (w : Int) ∧
        refBin ny.toNat nx.toNat then
      some (ny.toNat, nx.toNat)
    else none)

/-- Result record of `contourF1`. -/
structure ContourResult where
  precision : ℚ
  recallVal : ℚ
  f1 : ℚ
  deriving Repr, DecidableEq

/-- The per-sketch-pixel stream of first-found reference pixels; its
deduplicated size is the source's `matchedRef.size`, its plain length the
source's `sketchMatchCount` (a sketch pixel counts as matched iff its
scan found some reference pixel). -/
def matchedRefList (h w : Nat) (refBin sketchBin : Nat → Nat → Bool)
    (tol : Nat) : List (Nat × Nat) :=
  (edgeList h w sketchBin).filterMap
    (fun p => firstRefMatch h w refBin tol p.1 p.2)

/-- `contourF1`'s precision: `sketchMatchCount / sketchEdgeCount`, `0`
for an empty sketch edge set. -/
def contourPrecision (h w : Nat) (refBin sketchBin : Nat → Nat → Bool)
    (tol : Nat) : ℚ :=
  if edgeCount h w sketchBin = 0 then 0
  else ((matchedRefList h w refBin sketchBin tol).length : ℚ) /
    (edgeCount h w sketchBin : ℚ)

/-- `contourF1`'s recall: `matchedRef.size / refEdgeCount`, `1` for an
empty reference edge set. -/
def contourRecall (h w : Nat) (refBin sketchBin : Nat → Nat → Bool)
    (tol : Nat) : ℚ :=
  if edgeCount h w refBin = 0 then 1
  else ((matchedRefList h w refBin sketchBin tol).toFinset.card : ℚ) /
    (edgeCount h w refBin : ℚ)

/-- `contourF1(refBin, sketchBin, tolerance)`: tolerance-based contour
precision / recall / F1. -/
def contourF1 (h w : Nat) (refBin sketchBin : Nat → Nat → Bool)
    (tol : Nat) : ContourResult :=
  { precision := contourPrecision h w refBin sketchBin tol
    recallVal := contourRecall h w refBin sketchBin tol
    f1 :=
      if contourPrecision h w refBin sketchBin tol +
          contourRecall h w refBin sketchBin tol = 0 then 0
      else 2 * contourPrecision h w refBin sketchBin tol *
          contourRecall h w refBin sketchBin tol /
        (contourPrecision h w refBin sketchBin tol +
          contourRecall h w refBin sketchBin tol) }

/-- Number of "dark" pixels (intensity `< 200`) of an `h × w` grayscale
buffer — the ink counters of `inkDensityPenalty` and Glossary "ink
density". -/
def darkCount (h w : Nat) (g : Nat → Nat → ℚ) : Nat :=
  (((Finset.range h) ×ˢ (Finset.range w)).filter
    (fun p => g p.1 p.2 < 200)).card

/-- `inkDensityPenalty(refGray, sketchGray)`: global ink-density penalty
factor, transcribed branch for branch from the source. -/
def inkDensityPenalty (h w : Nat) (refGray sketchGray : Nat → Nat → ℚ) : ℚ :=
  let total : ℚ := (h * w : Nat)
  let refFrac : ℚ := (darkCount h w refGray : ℚ) / total
  let sketchFrac : ℚ := (darkCount h w sketchGray : ℚ) / total
  if sketchFrac ≤ refFrac * 1.2 then 1
  else if sketchFrac > 0.6 then 0.05
  else if sketchFrac > 0.4 then 0.15
  else if sketchFrac > 0.3 then 0.3
  else
    let excess : ℚ := sketchFrac / max refFrac 0.01
    if excess > 5 then 0.15
    else if excess > 3 then 0.35
    else if excess > 2 then 0.55
    else max 0.4 (1 - (excess - 1.2) * 0.4)

/-- `spatialExtraPenalty(refGray, sketchGray, patchSize)`: spatial
extra-ink penalty.  The source loops `y` over multiples of `patchSize`
with `y + patchSize <= h` (complete patches, including those flush with
the border), so the patch row indices are exactly the `ky` with
`ky * patchSize + patchSize ≤ h`. -/
def spatialExtraPenalty (h w : Nat) (refGray sketchGray : Nat → Nat → ℚ)
    (patchSize : Nat) : ℚ :=
  let rowIdx := (Finset.range h).filter (fun ky => ky * patchSize + patchSize ≤ h)
  let colIdx := (Finset.range w).filter (fun kx => kx * patchSize + patchSize ≤ w)
  let totalPatches := rowIdx.card * colIdx.card
  let n : ℚ := (patchSize * patchSize : Nat)
  let extraPatches := ((rowIdx ×ˢ colIdx).filter (fun k =>
    let refInk : ℚ := ((((Finset.range patchSize) ×ˢ (Finset.range patchSize)).filter
      (fun d => refGray (k.1 * patchSize + d.1) (k.2 * patchSize + d.2) < 200)).card : ℚ)
    let sketchInk : ℚ := ((((Finset.range patchSize) ×ˢ (Finset.range patchSize)).filter
      (fun d => sketchGray (k.1 * patchSize + d.1) (k.2 * patchSize + d.2) < 200)).card : ℚ)
    refInk / n < 0.02 ∧ sketchInk / n > 0.05)).card
  if totalPatches = 0 then 1
  else max 0.7 (1 - ((extraPatches : ℚ) / (totalPatches : ℚ)) * 1.5)

/-- Sum of a grayscale buffer over the `patchSize × patchSize` patch whose
top-left corner is `(y, x)`. -/
def patchSum (g : Nat → Nat → ℚ) (y x patchSize : Nat) : ℚ :=
  ∑ dy in Finset.range patchSize, ∑ dx in Finset.range patchSize,
    g (y + dy) (x + dx)

/-- The SSIM-like score of `localSimilarity` for one patch pair (before
the `Math.max(0, ssim)` clamp): local means, variances and covariance
with the standard 8-bit SSIM constants. -/
def patchSSIM (refGray sketchGray : Nat → Nat → ℚ) (y x patchSize : Nat) : ℚ :=
  let n : ℚ := (patchSize * patchSize : Nat)
  let meanR := patchSum refGray y x patchSize / n
  let meanS := patchSum sketchGray y x patchSize / n
  let varR := (∑ d in (Finset.range patchSize) ×ˢ (Finset.range patchSize),
    (refGray (y + d.1) (x + d.2) - meanR) ^ 2) / n
  let varS := (∑ d in (Finset.range patchSize) ×ˢ (Finset.range patchSize),
    (sketchGray (y + d.1) (x + d.2) - meanS) ^ 2) / n
  let cov := (∑ d in (Finset.range patchSize) ×ˢ (Finset.range patchSize),
    (refGray (y + d.1) (x + d.2) - meanR) *
      (sketchGray (y + d.1) (x + d.2) - meanS)) / n
  (2 * meanR * meanS + 6.5025) * (2 * cov + 58.5225) /
    ((meanR * meanR + meanS * meanS + 6.5025) * (varR + varS + 58.5225))

/-- `localSimilarity(refGray, sketchGray, patchSize)`: patch-based
SSIM-like metric.  NOTE the loop guard of the source is the strict
`y + patchSize < h` (unlike `spatialExtraPenalty`'s `<=`), so a complete
patch that ends exactly at the image border is NOT visited. -/
def localSimilarity (h w : Nat) (refGray sketchGray : Nat → Nat → ℚ)
    (patchSize : Nat) : ℚ :=
  let rowIdx := (Finset.range h).filter (fun ky => ky * patchSize + patchSize < h)
  let colIdx := (Finset.range w).filter (fun kx => kx * patchSize + patchSize < w)
  let count := rowIdx.card * colIdx.card
  let totalSim := ∑ ky in rowIdx, ∑ kx in colIdx,
    max 0 (patchSSIM refGray sketchGray (ky * patchSize) (kx * patchSize) patchSize)
  if count = 0 then 0 else totalSim / (count : ℚ)

/-- A detected keypoint: integer pixel coordinates and the Harris-style
corner response. -/
structure Keypoint where
  x : Nat
  y : Nat
  r : ℚ
  deriving Repr, DecidableEq

/-- Stable descending-by-response insertion: keeps earlier elements with
an equal response in front, exactly like the source's stable
`responses.sort((a, b) => b.r - a.r)`. -/
def insertByResponse (a : Keypoint) : List Keypoint → List Keypoint
  | [] => [a]
  | b :: l => if a.r ≤ b.r then b :: insertByResponse a l else a :: b :: l

/-- Stable sort of the response list, descending by response (models the
engine's stable JavaScript `Array.prototype.sort`). -/
def sortByResponse : List Keypoint → List Keypoint
  | [] => []
  | a :: l => insertByResponse a (sortByResponse l)

/-- The Harris-style corner response of `detectKeypoints` at `(y, x)`
(requires `y ≥ 2`, `x ≥ 2`): second-moment sums of central differences
over the 3×3 window, `det − 0.04·trace²`.  Offsets are shifted by one so
all indices stay in `Nat`: `dy, dx` range over `0..2` standing for
`−1..1`. -/
def cornerResponse (g : Nat → Nat → ℚ) (y x : Nat) : ℚ :=
  let ixx := ∑ dy in Finset.range 3, ∑ dx in Finset.range 3,
    (g (y + dy - 1) (x + dx) - g (y + dy - 1) (x + dx - 2)) ^ 2
  let iyy := ∑ dy in Finset.range 3, ∑ dx in Finset.range 3,
    (g (y + dy) (x + dx - 1) - g (y + dy - 2) (x + dx - 1)) ^ 2
  let ixy := ∑ dy in Finset.range 3, ∑ dx in Finset.range 3,
    (g (y + dy - 1) (x + dx) - g (y + dy - 1) (x + dx - 2)) *
      (g (y + dy) (x + dx - 1) - g (y + dy - 2) (x + dx - 1))
  ixx * iyy - ixy * ixy - 0.04 * (ixx + iyy) * (ixx + iyy)

/-- `detectKeypoints(gray, maxPoints)`: sample candidates on a stride-3
grid starting at `(2, 2)` with a 2-pixel border margin, keep responses
above 1000, sort descending (stably), truncate to `maxPoints`, return
coordinates. -/
def detectKeypoints (h w : Nat) (g : Nat → Nat → ℚ) (maxPoints : Nat) :
    List (ℚ × ℚ) :=
  let ys := ((List.range h).filter (fun k => 2 + 3 * k + 2 < h)).map (fun k => 2 + 3 * k)
  let xs := ((List.range w).filter (fun k => 2 + 3 * k + 2 < w)).map (fun k => 2 + 3 * k)
  let responses := (ys.flatMap (fun y => xs.map (fun x =>
    Keypoint.mk x y (cornerResponse g y x)))).filter (fun p => 1000 < p.r)
  ((sortByResponse responses).take maxPoints).map (fun p => ((p.x : ℚ), (p.y : ℚ)))

/-- `keypointMatchScore(kpRef, kpSketch, size)`.  The source compares the
Euclidean distance to the nearest submission keypoint with
`maxDist = size * 0.05`; since `√· ` is monotone this is embedded as the
equivalent comparison of squared distances.  (The guard on line 262 of
the source, `kpRef.length === 0 ? 0 : …`, is unreachable after the early
`return 0.5` and is dropped.) -/
def keypointMatchScore (kpRef kpSketch : List (ℚ × ℚ)) (size : ℚ) : ℚ :=
  if kpRef = [] then 0.5
  else
    let maxDistSq : ℚ := (size * 0.05) ^ 2
    let matched := kpRef.countP (fun p =>
      kpSketch.any (fun q => decide ((p.1 - q.1) ^ 2 + (p.2 - q.2) ^ 2 ≤ maxDistSq)))
    (matched : ℚ) / (kpRef.length : ℚ)

/-- The binarized Sobel edge map
(`binarize(sobelEdge(gray))`, threshold 30): interior pixels are edges
iff `min(255, √(gx²+gy²)) > 30`, which — `√·` being monotone and the cap
255 exceeding the threshold — is exactly `gx² + gy² > 900`; border pixels
(first/last row or column) keep strength 0 and are never edges.  `y` and
`x` are given with a `+1` shift inside so the Sobel taps stay in `Nat`. -/
def sobelBin (h w : Nat) (g : Nat → Nat → ℚ) : Nat → Nat → Bool :=
  fun y x =>
    if 1 ≤ y ∧ y + 1 < h ∧ 1 ≤ x ∧ x + 1 < w then
      let gx := -g (y - 1) (x - 1) + g (y - 1) (x + 1)
        - 2 * g y (x - 1) + 2 * g y (x + 1)
        - g (y + 1) (x - 1) + g (y + 1) (x + 1)
      let gy := -g (y - 1) (x - 1) - 2 * g (y - 1) x - g (y - 1) (x + 1)
        + g (y + 1) (x - 1) + 2 * g (y + 1) x + g (y + 1) (x + 1)
      decide (gx * gx + gy * gy > 900)
    else false

/-- The three difficulty tiers (shared `Difficulty` type). -/
inductive Difficulty where
  | easy
  | medium
  | hard
  deriving Repr, DecidableEq

/-- Per-difficulty scoring weights (shared `ScoringWeights` type; the
`local` field is called `localW` here because `local` is a Lean
keyword). -/
structure ScoringWeights where
  contour : ℚ
  keypoints : ℚ
  localW : ℚ
  deriving Repr, DecidableEq

/-- The `DIFFICULTY_WEIGHTS` table of the shared types module. -/
def DIFFICULTY_WEIGHTS : Difficulty → ScoringWeights
  | .easy => ⟨0.65, 0.30, 0.05⟩
  | .medium => ⟨0.60, 0.33, 0.07⟩
  | .hard => ⟨0.55, 0.35, 0.10⟩

/-- JavaScript's `Math.round(x * 100) / 100` (round half up to two
decimal places). -/
def roundHundredths (x : ℚ) : ℚ :=
  ((⌊x * 100 + 1 / 2⌋ : ℤ) : ℚ) / 100

/-- Numeric outputs of `computeScore`: the returned `score` and the four
`breakdown` fields. -/
structure ScoreOutput where
  score : ℚ
  contourPct : ℚ
  keypointPct : ℚ
  localPct : ℚ
  compositePct : ℚ
  deriving Repr, DecidableEq

/-- Stage 1+2+3 of `computeScore`: the contour F1 of the binarized Sobel
edge maps of the two normalized grayscale buffers, tolerance 3. -/
def contourScoreOf (refGray sketchGray : Nat → Nat → ℚ) : ℚ :=
  (contourF1 TARGET_SIZE TARGET_SIZE (sobelBin TARGET_SIZE TARGET_SIZE refGray)
    (sobelBin TARGET_SIZE TARGET_SIZE sketchGray) 3).f1

/-- Stage 4 of `computeScore`: the keypoint match score of the two
detected keypoint lists, with `size = TARGET_SIZE`. -/
def kpScoreOf (refGray sketchGray : Nat → Nat → ℚ) : ℚ :=
  keypointMatchScore (detectKeypoints TARGET_SIZE TARGET_SIZE refGray 200)
    (detectKeypoints TARGET_SIZE TARGET_SIZE sketchGray 200) (TARGET_SIZE : Nat)

/-- Stage 5 of `computeScore`: local similarity at patch size 16. -/
def localScoreOf (refGray sketchGray : Nat → Nat → ℚ) : ℚ :=
  localSimilarity TARGET_SIZE TARGET_SIZE refGray sketchGray 16

/-- The difficulty-weighted raw composite (line 430 of the engine). -/
def rawComposite (refGray sketchGray : Nat → Nat → ℚ) (d : Difficulty) : ℚ :=
  (DIFFICULTY_WEIGHTS d).contour * contourScoreOf refGray sketchGray +
    (DIFFICULTY_WEIGHTS d).keypoints * kpScoreOf refGray sketchGray +
    (DIFFICULTY_WEIGHTS d).localW * localScoreOf refGray sketchGray

/-- The composite after both penalty factors (line 436 of the engine). -/
def compositeOf (refGray sketchGray : Nat → Nat → ℚ) (d : Difficulty) : ℚ :=
  rawComposite refGray sketchGray d *
    inkDensityPenalty TARGET_SIZE TARGET_SIZE refGray sketchGray *
    spatialExtraPenalty TARGET_SIZE TARGET_SIZE refGray sketchGray 32

/-- The numeric core of `computeScore` (after both images are decoded,
resized to `TARGET_SIZE × TARGET_SIZE` and converted to grayscale; the
image-file I/O and the three diagnostic renderings carry no numbers into
the score).  Follows lines 404–475 of the engine:
`percentage = Math.round(Math.min(100, composite * 100) * 100) / 100`,
and each breakdown field is `Math.round(stage * 10000) / 100`. -/
def computeScore (refGray sketchGray : Nat → Nat → ℚ) (d : Difficulty) :
    ScoreOutput :=
  { score := roundHundredths (min 100 (compositeOf refGray sketchGray d * 100))
    contourPct := roundHundredths (contourScoreOf refGray sketchGray * 100)
    keypointPct := roundHundredths (kpScoreOf refGray sketchGray * 100)
    localPct := roundHundredths (localScoreOf refGray sketchGray * 100)
    compositePct :=
      roundHundredths (min 100 (compositeOf refGray sketchGray d * 100)) }

/-! ## Claim-side (specification) definitions

Each of the following definitions transcribes the *words of a claim*
(kept clearly apart from the source transcriptions above) so that a
claim of the form "the code computes X" can be settled by comparing the
source definition with the claim definition. -/

/-- Claim C1's recall: the number of *distinct reference edge pixels
that have at least one submission edge pixel within the tolerance
radius* (the engine's tolerance neighbourhood is the
`(2·tol+1) × (2·tol+1)` box), divided by the reference edge pixel
count; `1` for an empty reference. -/
def recallSpec (h w : Nat) (refBin sketchBin : Nat → Nat → Bool)
    (tol : Nat) : ℚ :=
  let refEdgeCount := edgeCount h w refBin
  let matched := (((Finset.range h) ×ˢ (Finset.range w)).filter (fun p =>
    refBin p.1 p.2 ∧ (edgeList h w sketchBin).any (fun q =>
      ((p.1 : Int) - q.1).natAbs ≤ tol ∧ ((p.2 : Int) - q.2).natAbs ≤ tol))).card
  if refEdgeCount = 0 then 1 else (matched : ℚ) / (refEdgeCount : ℚ)

/-- Claim C2's local similarity: the arithmetic mean of the per-patch
scores over *every complete patch that fits inside the buffers*
(patch row indices `ky` with `ky * patchSize + patchSize ≤ h`, i.e. the
flush border patch included), only partial trailing patches dropped. -/
def localSimilarityAllPatches (h w : Nat) (refGray sketchGray : Nat → Nat → ℚ)
    (patchSize : Nat) : ℚ :=
  let rowIdx := (Finset.range h).filter (fun ky => ky * patchSize + patchSize ≤ h)
  let colIdx := (Finset.range w).filter (fun kx => kx * patchSize + patchSize ≤ w)
  let count := rowIdx.card * colIdx.card
  let totalSim := ∑ ky in rowIdx, ∑ kx in colIdx,
    max 0 (patchSSIM refGray sketchGray (ky * patchSize) (kx * patchSize) patchSize)
  if count = 0 then 0 else totalSim / (count : ℚ)

/-- Amended form of claim C2: the mean ranges over the patch indices
`0 ≤ k < (dimension − 1) / patchSize` — patches whose end lies strictly
before the border — so a complete patch flush with the right or bottom
edge is dropped as well. -/
def localSimilarityTruncMean (h w : Nat) (refGray sketchGray : Nat → Nat → ℚ)
    (patchSize : Nat) : ℚ :=
  let rows := (h - 1) / patchSize
  let cols := (w - 1) / patchSize
  let totalSim := ∑ ky in Finset.range rows, ∑ kx in Finset.range cols,
    max 0 (patchSSIM refGray sketchGray (ky * patchSize) (kx * patchSize) patchSize)
  if rows * cols = 0 then 0 else totalSim / ((rows * cols : Nat) : ℚ)

/-- Claim C6's ink-density penalty factor, written from the claim's
sentence: no penalty up to 1.2× the reference ink fraction, then the
absolute-coverage breakpoints 0.6 / 0.4 / 0.3, then the excess-ink
breakpoints 5 / 3 / 2 over `excess = submission ÷ max(reference, 0.01)`,
else the graduated `max(0.4, 1 − (excess − 1.2)·0.4)`. -/
def inkDensityPenaltySpec (h w : Nat) (refGray sketchGray : Nat → Nat → ℚ) : ℚ :=
  let total : ℚ := ((h * w : Nat) : ℚ)
  let refFrac : ℚ := (darkCount h w refGray : ℚ) / total
  let sketchFrac : ℚ := (darkCount h w sketchGray : ℚ) / total
  let excess : ℚ := sketchFrac / max refFrac 0.01
  if sketchFrac ≤ 1.2 * refFrac then 1
  else if 0.6 < sketchFrac then 0.05
  else if 0.4 < sketchFrac then 0.15
  else if 0.3 < sketchFrac then 0.3
  else if 5 < excess then 0.15
  else if 3 < excess then 0.35
  else if 2 < excess then 0.55
  else max 0.4 (1 - (excess - 1.2) * 0.4)

/-- Claim C7's spatial extra-ink penalty, written from the claim's
sentence: over all complete `patchSize × patchSize` patches (`h / ps` by
`w / ps` of them), count the patches with reference ink fraction below
2% and submission ink fraction above 5%, and return
`max(0.7, 1 − (extra / total)·1.5)` (`1` when no patch fits). -/
def spatialExtraPenaltySpec (h w : Nat) (refGray sketchGray : Nat → Nat → ℚ)
    (patchSize : Nat) : ℚ :=
  let rows := h / patchSize
  let cols := w / patchSize
  let n : ℚ := (patchSize * patchSize : Nat)
  let extra := (((Finset.range rows) ×ˢ (Finset.range cols)).filter (fun k =>
    ((((Finset.range patchSize) ×ˢ (Finset.range patchSize)).filter
      (fun d => refGray (k.1 * patchSize + d.1) (k.2 * patchSize + d.2) < 200)).card : ℚ)
        / n < 0.02 ∧
    ((((Finset.range patchSize) ×ˢ (Finset.range patchSize)).filter
      (fun d => sketchGray (k.1 * patchSize + d.1) (k.2 * patchSize + d.2) < 200)).card : ℚ)
        / n > 0.05)).card
  if rows * cols = 0 then 1
  else max 0.7 (1 - ((extra : ℚ) / ((rows * cols : Nat) : ℚ)) * 1.5)

/-- Clamp to the unit interval, as claim C5 words the final clamp. -/
def clamp01 (x : ℚ) : ℚ := max 0 (min 1 x)

/-! ## Shared auxiliary lemmas -/

/-- A guarded count ratio `a / b` (with any in-range fallback `c` for
`b = 0`) lies in the unit interval when `a ≤ b`. -/
lemma guardedRatio_bounds (a b : Nat) (c : ℚ) (hab : a ≤ b) (hc0 : 0 ≤ c)
    (hc1 : c ≤ 1) :
    0 ≤ (if b = 0 then c else (a : ℚ) / b) ∧
      (if b = 0 then c else (a : ℚ) / b) ≤ 1 := by
  split_ifs with hb
  · exact ⟨hc0, hc1⟩
  · have hbpos : (0 : ℚ) < b := by exact_mod_cast Nat.pos_of_ne_zero hb
    refine ⟨div_nonneg (by positivity) hbpos.le, ?_⟩
    rw [div_le_one hbpos]
    exact_mod_cast hab

/-- The guarded harmonic mean of two unit-interval numbers lies in the
unit interval. -/
lemma f1_bounds (p r : ℚ) (hp0 : 0 ≤ p) (hp1 : p ≤ 1) (hr0 : 0 ≤ r)
    (hr1 : r ≤ 1) :
    0 ≤ (if p + r = 0 then (0 : ℚ) else 2 * p * r / (p + r)) ∧
      (if p + r = 0 then (0 : ℚ) else 2 * p * r / (p + r)) ≤ 1 := by
  split_ifs with hpr
  · norm_num
  · have hsum : 0 < p + r := lt_of_le_of_ne (by linarith) (Ne.symm hpr)
    refine ⟨div_nonneg (by positivity) hsum.le, ?_⟩
    rw [div_le_one hsum]
    nlinarith [mul_nonneg hp0 (sub_nonneg.2 hr1), mul_nonneg hr0 (sub_nonneg.2 hp1)]

/-- Membership in the row-major pixel grid. -/
lemma mem_gridList (h w : Nat) (p : Nat × Nat) :
    p ∈ gridList h w ↔ p.1 < h ∧ p.2 < w := by
  obtain ⟨y, x⟩ := p
  simp [gridList, List.mem_flatMap, List.mem_map, List.mem_range]

/-- Whatever the tolerance scan reports is an in-bounds reference edge
pixel. -/
lemma firstRefMatch_mem (h w : Nat) (refBin : Nat → Nat → Bool) (tol y x : Nat)
    (q : Nat × Nat) (hq : firstRefMatch h w refBin tol y x = some q) :
    q.1 < h ∧ q.2 < w ∧ refBin q.1 q.2 = true := by
  obtain ⟨d, -, hd⟩ := List.exists_of_findSome?_eq_some hq
  dsimp only at hd
  split at hd
  case isTrue hcond =>
    obtain ⟨h1, h2, h3, h4, h5⟩ := hcond
    have hq2 := Option.some.inj hd
    subst hq2
    refine ⟨by omega, by omega, h5⟩
  case isFalse hcond =>
    simp at hd

/-- The deduplicated first-found matches are no more numerous than the
reference edge pixels. -/
lemma matchedRef_card_le (h w : Nat) (rb sb : Nat → Nat → Bool) (tol : Nat) :
    (matchedRefList h w rb sb tol).toFinset.card ≤ edgeCount h w rb := by
  have hsub : (matchedRefList h w rb sb tol).toFinset ⊆
      (edgeList h w rb).toFinset := by
    intro q hq
    rw [List.mem_toFinset] at hq ⊢
    obtain ⟨p, -, hp⟩ := List.mem_filterMap.1 hq
    obtain ⟨h1, h2, h3⟩ := firstRefMatch_mem h w rb tol p.1 p.2 q hp
    exact List.mem_filter.2 ⟨(mem_gridList h w q).2 ⟨h1, h2⟩, h3⟩
  calc (matchedRefList h w rb sb tol).toFinset.card
      ≤ (edgeList h w rb).toFinset.card := Finset.card_le_card hsub
    _ ≤ (edgeList h w rb).length := (edgeList h w rb).toFinset_card_le
    _ = edgeCount h w rb := rfl

/-- Precision, recall and F1 of the contour matcher all lie in `[0, 1]`. -/
lemma contourF1_bounds (h w : Nat) (rb sb : Nat → Nat → Bool) (tol : Nat) :
    (0 ≤ (contourF1 h w rb sb tol).precision ∧
      (contourF1 h w rb sb tol).precision ≤ 1) ∧
    (0 ≤ (contourF1 h w rb sb tol).recallVal ∧
      (contourF1 h w rb sb tol).recallVal ≤ 1) ∧
    (0 ≤ (contourF1 h w rb sb tol).f1 ∧ (contourF1 h w rb sb tol).f1 ≤ 1) := by
  have hlen : (matchedRefList h w rb sb tol).length ≤ edgeCount h w sb :=
    List.length_filterMap_le _ _
  have hp := guardedRatio_bounds (matchedRefList h w rb sb tol).length
    (edgeCount h w sb) 0 hlen le_rfl zero_le_one
  have hr := guardedRatio_bounds (matchedRefList h w rb sb tol).toFinset.card
    (edgeCount h w rb) 1 (matchedRef_card_le h w rb sb tol) zero_le_one le_rfl
  have hp2 : 0 ≤ contourPrecision h w rb sb tol ∧
      contourPrecision h w rb sb tol ≤ 1 := by
    rw [contourPrecision]; exact hp
  have hr2 : 0 ≤ contourRecall h w rb sb tol ∧
      contourRecall h w rb sb tol ≤ 1 := by
    rw [contourRecall]; exact hr
  have hf := f1_bounds _ _ hp2.1 hp2.2 hr2.1 hr2.2
  exact ⟨hp2, hr2, hf⟩

/-- Cauchy-Schwarz-flavoured bound used for the SSIM covariance: twice a
sum of products is bounded in absolute value by the sum of the two sums
of squares. -/
lemma two_mul_sum_mul_le {ι : Type} (s : Finset ι) (F G : ι → ℚ) :
    2 * ∑ i in s, F i * G i ≤ (∑ i in s, F i ^ 2) + ∑ i in s, G i ^ 2 ∧
      -((∑ i in s, F i ^ 2) + ∑ i in s, G i ^ 2) ≤ 2 * ∑ i in s, F i * G i := by
  have h1 : (0 : ℚ) ≤ ∑ i in s, (F i - G i) ^ 2 :=
    Finset.sum_nonneg (fun i _ => sq_nonneg _)
  have h2 : (0 : ℚ) ≤ ∑ i in s, (F i + G i) ^ 2 :=
    Finset.sum_nonneg (fun i _ => sq_nonneg _)
  have e1 : ∑ i in s, (F i - G i) ^ 2 =
      ((∑ i in s, F i ^ 2) + ∑ i in s, G i ^ 2) - 2 * ∑ i in s, F i * G i := by
    rw [Finset.mul_sum, ← Finset.sum_add_distrib, ← Finset.sum_sub_distrib]
    exact Finset.sum_congr rfl (fun i _ => by ring)
  have e2 : ∑ i in s, (F i + G i) ^ 2 =
      ((∑ i in s, F i ^ 2) + ∑ i in s, G i ^ 2) + 2 * ∑ i in s, F i * G i := by
    rw [Finset.mul_sum, ← Finset.sum_add_distrib, ← Finset.sum_add_distrib]
    exact Finset.sum_congr rfl (fun i _ => by ring)
  constructor <;> [linarith [e1 ▸ h1]; linarith [e2 ▸ h2]]

/-- The SSIM formula is at most 1 whenever the "variances" are
nonnegative and twice the "covariance" is bounded in absolute value by
their sum — regardless of the means. -/
lemma ssim_le_one (a b vR vS c : ℚ) (hvR : 0 ≤ vR) (hvS : 0 ≤ vS)
    (h1 : 2 * c ≤ vR + vS) (h2 : -(vR + vS) ≤ 2 * c) :
    (2 * a * b + 6.5025) * (2 * c + 58.5225) /
      ((a * a + b * b + 6.5025) * (vR + vS + 58.5225)) ≤ 1 := by
  have hD1 : (0 : ℚ) < a * a + b * b + 6.5025 := by nlinarith [sq_nonneg a, sq_nonneg b]
  have hD2 : (0 : ℚ) < vR + vS + 58.5225 := by linarith
  rw [div_le_one (by positivity)]
  nlinarith [mul_nonneg (by nlinarith [sq_nonneg (a - b)] :
      (0 : ℚ) ≤ a * a + b * b - 2 * a * b)
      (by linarith : (0 : ℚ) ≤ vR + vS + 2 * c),
    mul_nonneg (by nlinarith [sq_nonneg (a + b)] :
      (0 : ℚ) ≤ a * a + b * b + 2 * a * b)
      (by linarith : (0 : ℚ) ≤ vR + vS - 2 * c),
    sq_nonneg (a - b), sq_nonneg (a + b)]

/-- Every per-patch SSIM-like score is at most 1. -/
lemma patchSSIM_le_one (f g : Nat → Nat → ℚ) (y x ps : Nat) :
    patchSSIM f g y x ps ≤ 1 := by
  by_cases hps : ps = 0
  · subst hps
    simp [patchSSIM, patchSum]
    norm_num
  · have hn : (0 : ℚ) ≤ ((ps * ps : Nat) : ℚ) := by positivity
    rw [patchSSIM]
    have hkey := two_mul_sum_mul_le ((Finset.range ps) ×ˢ (Finset.range ps))
      (fun d => f (y + d.1) (x + d.2) - patchSum f y x ps / ((ps * ps : Nat) : ℚ))
      (fun d => g (y + d.1) (x + d.2) - patchSum g y x ps / ((ps * ps : Nat) : ℚ))
    refine ssim_le_one _ _ _ _ _
      (div_nonneg (Finset.sum_nonneg (fun d _ => sq_nonneg _)) hn)
      (div_nonneg (Finset.sum_nonneg (fun d _ => sq_nonneg _)) hn) ?_ ?_
    · have step := hkey.1
      calc (2 : ℚ) * ((∑ d in (Finset.range ps) ×ˢ (Finset.range ps),
          (f (y + d.1) (x + d.2) - patchSum f y x ps / ((ps * ps : Nat) : ℚ)) *
          (g (y + d.1) (x + d.2) - patchSum g y x ps / ((ps * ps : Nat) : ℚ))) /
            ((ps * ps : Nat) : ℚ)) =
        (2 * ∑ d in (Finset.range ps) ×ˢ (Finset.range ps),
          (f (y + d.1) (x + d.2) - patchSum f y x ps / ((ps * ps : Nat) : ℚ)) *
          (g (y + d.1) (x + d.2) - patchSum g y x ps / ((ps * ps : Nat) : ℚ))) /
            ((ps * ps : Nat) : ℚ) := by ring
      _ ≤ ((∑ d in (Finset.range ps) ×ˢ (Finset.range ps),
          (f (y + d.1) (x + d.2) - patchSum f y x ps / ((ps * ps : Nat) : ℚ)) ^ 2) +
          ∑ d in (Finset.range ps) ×ˢ (Finset.range ps),
          (g (y + d.1) (x + d.2) - patchSum g y x ps / ((ps * ps : Nat) : ℚ)) ^ 2) /
            ((ps * ps : Nat) : ℚ) := by gcongr
      _ = (∑ d in (Finset.range ps) ×ˢ (Finset.range ps),
          (f (y + d.1) (x + d.2) - patchSum f y x ps / ((ps * ps : Nat) : ℚ)) ^ 2) /
            ((ps * ps : Nat) : ℚ) +
          (∑ d in (Finset.range ps) ×ˢ (Finset.range ps),
          (g (y + d.1) (x + d.2) - patchSum g y x ps / ((ps * ps : Nat) : ℚ)) ^ 2) /
            ((ps * ps : Nat) : ℚ) := by ring
    · have step := hkey.2
      calc -(((∑ d in (Finset.range ps) ×ˢ (Finset.range ps),
            (f (y + d.1) (x + d.2) - patchSum f y x ps / ((ps * ps : Nat) : ℚ)) ^ 2) /
              ((ps * ps : Nat) : ℚ)) +
          (∑ d in (Finset.range ps) ×ˢ (Finset.range ps),
            (g (y + d.1) (x + d.2) - patchSum g y x ps / ((ps * ps : Nat) : ℚ)) ^ 2) /
              ((ps * ps : Nat) : ℚ)) =
          (-((∑ d in (Finset.range ps) ×ˢ (Finset.range ps),
            (f (y + d.1) (x + d.2) - patchSum f y x ps / ((ps * ps : Nat) : ℚ)) ^ 2) +
            ∑ d in (Finset.range ps) ×ˢ (Finset.range ps),
            (g (y + d.1) (x + d.2) - patchSum g y x ps / ((ps * ps : Nat) : ℚ)) ^ 2)) /
              ((ps * ps : Nat) : ℚ) := by ring
        _ ≤ (2 * ∑ d in (Finset.range ps) ×ˢ (Finset.range ps),
            (f (y + d.1) (x + d.2) - patchSum f y x ps / ((ps * ps : Nat) : ℚ)) *
            (g (y + d.1) (x + d.2) - patchSum g y x ps / ((ps * ps : Nat) : ℚ))) /
              ((ps * ps : Nat) : ℚ) := by gcongr
        _ = 2 * ((∑ d in (Finset.range ps) ×ˢ (Finset.range ps),
            (f (y + d.1) (x + d.2) - patchSum f y x ps / ((ps * ps : Nat) : ℚ)) *
            (g (y + d.1) (x + d.2) - patchSum g y x ps / ((ps * ps : Nat) : ℚ))) /
              ((ps * ps : Nat) : ℚ)) := by ring

/-- The keypoint match score lies in `[0, 1]`. -/
lemma keypointMatchScore_bounds (kpRef kpSketch : List (ℚ × ℚ)) (size : ℚ) :
    0 ≤ keypointMatchScore kpRef kpSketch size ∧
      keypointMatchScore kpRef kpSketch size ≤ 1 := by
  unfold keypointMatchScore
  split_ifs with hnil
  · norm_num
  · have hlen : 0 < kpRef.length := List.length_pos.2 hnil
    have hlenQ : (0 : ℚ) < kpRef.length := by exact_mod_cast hlen
    refine ⟨div_nonneg (by positivity) hlenQ.le, ?_⟩
    rw [div_le_one hlenQ]
    exact_mod_cast kpRef.countP_le_length _

/-- A double mean of values bounded by 1 is at most 1. -/
lemma mean_le_one {ι κ : Type} (s : Finset ι) (t : Finset κ) (F : ι → κ → ℚ)
    (hF : ∀ i ∈ s, ∀ j ∈ t, F i j ≤ 1) (hc : ¬s.card * t.card = 0) :
    (∑ i in s, ∑ j in t, F i j) / ((s.card * t.card : Nat) : ℚ) ≤ 1 := by
  have hpos : (0 : ℚ) < ((s.card * t.card : Nat) : ℚ) := by
    exact_mod_cast Nat.pos_of_ne_zero hc
  rw [div_le_one hpos]
  calc ∑ i in s, ∑ j in t, F i j
      ≤ ∑ _i in s, ∑ _j in t, (1 : ℚ) :=
        Finset.sum_le_sum (fun i hi => Finset.sum_le_sum (fun j hj => hF i hi j hj))
    _ = ((s.card * t.card : Nat) : ℚ) := by
        simp [Finset.sum_const, nsmul_eq_mul]

/-- The local similarity score is nonnegative. -/
lemma localSimilarity_nonneg (h w : Nat) (f g : Nat → Nat → ℚ) (ps : Nat) :
    0 ≤ localSimilarity h w f g ps := by
  simp only [localSimilarity]
  split_ifs with hc
  · exact le_rfl
  · exact div_nonneg
      (Finset.sum_nonneg (fun ky _ => Finset.sum_nonneg (fun kx _ => le_max_left 0 _)))
      (by positivity)

/-- The local similarity score is at most 1. -/
lemma localSimilarity_le_one (h w : Nat) (f g : Nat → Nat → ℚ) (ps : Nat) :
    localSimilarity h w f g ps ≤ 1 := by
  simp only [localSimilarity]
  split_ifs with hc
  · exact zero_le_one
  · exact mean_le_one _ _ _
      (fun ky _ kx _ => max_le zero_le_one (patchSSIM_le_one f g _ _ ps)) hc

/-- Case analysis for the ink-density penalty: every branch is positive
and at most `1.48 = 37/25` (the last branch reaches above 1 for excess
below 1.2, hence the unusual upper bound). -/
lemma inkPenaltyCases (rf sf : ℚ) (hsf : 0 ≤ sf) :
    0 < (if sf ≤ rf * 1.2 then (1 : ℚ)
      else if sf > 0.6 then 0.05
      else if sf > 0.4 then 0.15
      else if sf > 0.3 then 0.3
      else if sf / max rf 0.01 > 5 then 0.15
      else if sf / max rf 0.01 > 3 then 0.35
      else if sf / max rf 0.01 > 2 then 0.55
      else max 0.4 (1 - (sf / max rf 0.01 - 1.2) * 0.4)) ∧
    (if sf ≤ rf * 1.2 then (1 : ℚ)
      else if sf > 0.6 then 0.05
      else if sf > 0.4 then 0.15
      else if sf > 0.3 then 0.3
      else if sf / max rf 0.01 > 5 then 0.15
      else if sf / max rf 0.01 > 3 then 0.35
      else if sf / max rf 0.01 > 2 then 0.55
      else max 0.4 (1 - (sf / max rf 0.01 - 1.2) * 0.4)) ≤ 37 / 25 := by
  have he : 0 ≤ sf / max rf 0.01 :=
    div_nonneg hsf (le_trans (by norm_num) (le_max_right rf 0.01))
  split_ifs with h1 h2 h3 h4 h5 h6 h7
  · exact ⟨by norm_num, by norm_num⟩
  · exact ⟨by norm_num, by norm_num⟩
  · exact ⟨by norm_num, by norm_num⟩
  · exact ⟨by norm_num, by norm_num⟩
  · exact ⟨by norm_num, by norm_num⟩
  · exact ⟨by norm_num, by norm_num⟩
  · exact ⟨by norm_num, by norm_num⟩
  · generalize hE : sf / max rf 0.01 = E at he
    constructor
    · exact lt_of_lt_of_le (by norm_num) (le_max_left _ _)
    · apply max_le
      · norm_num
      · linarith

/-- The ink-density penalty factor is positive and at most `37/25`. -/
lemma inkDensityPenalty_bounds (h w : Nat) (f g : Nat → Nat → ℚ) :
    0 < inkDensityPenalty h w f g ∧ inkDensityPenalty h w f g ≤ 37 / 25 := by
  simp only [inkDensityPenalty]
  exact inkPenaltyCases _ _ (by positivity)

/-- Auxiliary: subtracting a nonnegative multiple keeps a value at
most 1. -/
lemma one_sub_scaled_le_one (q : ℚ) (hq : 0 ≤ q) : 1 - q * 1.5 ≤ 1 := by
  nlinarith

/-- The spatial extra-ink penalty factor lies in `[0.7, 1]`. -/
lemma spatialExtraPenalty_bounds (h w : Nat) (f g : Nat → Nat → ℚ) (ps : Nat) :
    7 / 10 ≤ spatialExtraPenalty h w f g ps ∧ spatialExtraPenalty h w f g ps ≤ 1 := by
  simp only [spatialExtraPenalty]
  split_ifs with hc
  · norm_num
  · constructor
    · exact le_trans (by norm_num) (le_max_left _ _)
    · exact max_le (by norm_num) (one_sub_scaled_le_one _ (by positivity))

/-- Rounding to hundredths preserves nonnegativity. -/
lemma roundHundredths_nonneg (x : ℚ) (hx : 0 ≤ x) : 0 ≤ roundHundredths x := by
  rw [roundHundredths]
  apply div_nonneg _ (by norm_num)
  have h0 : (0 : ℤ) ≤ ⌊x * 100 + 1 / 2⌋ := Int.floor_nonneg.2 (by positivity)
  exact_mod_cast h0

/-- Rounding to hundredths of a value at most 100 stays at most 100. -/
lemma roundHundredths_le_100 (x : ℚ) (hx : x ≤ 100) : roundHundredths x ≤ 100 := by
  rw [roundHundredths, div_le_iff (by norm_num : (0 : ℚ) < 100)]
  have h2 : ⌊x * 100 + 1 / 2⌋ ≤ ⌊(10000 : ℚ) + 1 / 2⌋ := Int.floor_mono (by linarith)
  have h3 : ⌊(10000 : ℚ) + 1 / 2⌋ = 10000 := by
    rw [Int.floor_eq_iff] <;> norm_num
  have h4 : ⌊x * 100 + 1 / 2⌋ ≤ (10000 : ℤ) := h3 ▸ h2
  calc ((⌊x * 100 + 1 / 2⌋ : ℤ) : ℚ) ≤ ((10000 : ℤ) : ℚ) := by exact_mod_cast h4
    _ = 100 * 100 := by norm_num

/-- The weights of every difficulty tier are nonnegative. -/
lemma weights_nonneg (d : Difficulty) :
    0 ≤ (DIFFICULTY_WEIGHTS d).contour ∧ 0 ≤ (DIFFICULTY_WEIGHTS d).keypoints ∧
      0 ≤ (DIFFICULTY_WEIGHTS d).localW := by
  cases d <;> refine ⟨by norm_num [DIFFICULTY_WEIGHTS], by norm_num [DIFFICULTY_WEIGHTS],
    by norm_num [DIFFICULTY_WEIGHTS]⟩

/-- The weighted raw composite of any pair of buffers is nonnegative. -/
lemma rawComposite_nonneg (rg sg : Nat → Nat → ℚ) (d : Difficulty) :
    0 ≤ rawComposite rg sg d := by
  have hF := contourF1_bounds TARGET_SIZE TARGET_SIZE
    (sobelBin TARGET_SIZE TARGET_SIZE rg) (sobelBin TARGET_SIZE TARGET_SIZE sg) 3
  have hK := keypointMatchScore_bounds (detectKeypoints TARGET_SIZE TARGET_SIZE rg 200)
    (detectKeypoints TARGET_SIZE TARGET_SIZE sg 200) (TARGET_SIZE : Nat)
  have hL := localSimilarity_nonneg TARGET_SIZE TARGET_SIZE rg sg 16
  have hw := weights_nonneg d
  exact add_nonneg (add_nonneg (mul_nonneg hw.1 hF.2.2.1) (mul_nonneg hw.2.1 hK.1))
    (mul_nonneg hw.2.2 hL)

/-- The penalty-adjusted composite of any pair of buffers is
nonnegative. -/
lemma compositeOf_nonneg (rg sg : Nat → Nat → ℚ) (d : Difficulty) :
    0 ≤ compositeOf rg sg d := by
  have hI := inkDensityPenalty_bounds TARGET_SIZE TARGET_SIZE rg sg
  have hS := spatialExtraPenalty_bounds TARGET_SIZE TARGET_SIZE rg sg 32
  exact mul_nonneg (mul_nonneg (rawComposite_nonneg rg sg d) hI.1.le)
    (le_trans (by norm_num) hS.1)

/-- The weighted raw composite is at most the largest stage value, in
particular at most 1 when every stage is; here only the form needed
below: it is bounded by 1 because the three weights sum to 1 in every
tier and every stage score is at most 1. -/
lemma rawComposite_le_one (rg sg : Nat → Nat → ℚ) (d : Difficulty) :
    rawComposite rg sg d ≤ 1 := by
  have hF := contourF1_bounds TARGET_SIZE TARGET_SIZE
    (sobelBin TARGET_SIZE TARGET_SIZE rg) (sobelBin TARGET_SIZE TARGET_SIZE sg) 3
  have hK := keypointMatchScore_bounds (detectKeypoints TARGET_SIZE TARGET_SIZE rg 200)
    (detectKeypoints TARGET_SIZE TARGET_SIZE sg 200) (TARGET_SIZE : Nat)
  have hL1 := localSimilarity_le_one TARGET_SIZE TARGET_SIZE rg sg 16
  have hL0 := localSimilarity_nonneg TARGET_SIZE TARGET_SIZE rg sg 16
  have hf1 := hF.2.2
  have hk := hK
  rw [rawComposite, contourScoreOf, kpScoreOf, localScoreOf] at *
  cases d <;>
    · simp only [DIFFICULTY_WEIGHTS] at *
      nlinarith [hf1.1, hf1.2, hk.1, hk.2, hL0, hL1]

/-- All five numeric outputs of `computeScore` lie in `[0, 100]`. -/
lemma computeScore_output_bounds (rg sg : Nat → Nat → ℚ) (d : Difficulty) :
    (0 ≤ (computeScore rg sg d).score ∧ (computeScore rg sg d).score ≤ 100) ∧
    (0 ≤ (computeScore rg sg d).contourPct ∧
      (computeScore rg sg d).contourPct ≤ 100) ∧
    (0 ≤ (computeScore rg sg d).keypointPct ∧
      (computeScore rg sg d).keypointPct ≤ 100) ∧
    (0 ≤ (computeScore rg sg d).localPct ∧
      (computeScore rg sg d).localPct ≤ 100) ∧
    (0 ≤ (computeScore rg sg d).compositePct ∧
      (computeScore rg sg d).compositePct ≤ 100) := by
  have hF := contourF1_bounds TARGET_SIZE TARGET_SIZE
    (sobelBin TARGET_SIZE TARGET_SIZE rg) (sobelBin TARGET_SIZE TARGET_SIZE sg) 3
  have hK := keypointMatchScore_bounds (detectKeypoints TARGET_SIZE TARGET_SIZE rg 200)
    (detectKeypoints TARGET_SIZE TARGET_SIZE sg 200) (TARGET_SIZE : Nat)
  have hL1 := localSimilarity_le_one TARGET_SIZE TARGET_SIZE rg sg 16
  have hL0 := localSimilarity_nonneg TARGET_SIZE TARGET_SIZE rg sg 16
  have hc0 := compositeOf_nonneg rg sg d
  have hcs0 : 0 ≤ contourScoreOf rg sg := hF.2.2.1
  have hcs1 : contourScoreOf rg sg ≤ 1 := hF.2.2.2
  have hks0 : 0 ≤ kpScoreOf rg sg := hK.1
  have hks1 : kpScoreOf rg sg ≤ 1 := hK.2
  have hls0 : 0 ≤ localScoreOf rg sg := hL0
  have hls1 : localScoreOf rg sg ≤ 1 := hL1
  have hscore : 0 ≤ (computeScore rg sg d).score ∧
      (computeScore rg sg d).score ≤ 100 :=
    ⟨roundHundredths_nonneg _ (le_min (by norm_num) (mul_nonneg hc0 (by norm_num))),
      roundHundredths_le_100 _ (min_le_left _ _)⟩
  refine ⟨hscore, ?_, ?_, ?_, hscore⟩
  · exact ⟨roundHundredths_nonneg _ (mul_nonneg hcs0 (by norm_num)),
      roundHundredths_le_100 _ (by linarith)⟩
  · exact ⟨roundHundredths_nonneg _ (mul_nonneg hks0 (by norm_num)),
      roundHundredths_le_100 _ (by linarith)⟩
  · exact ⟨roundHundredths_nonneg _ (mul_nonneg hls0 (by norm_num)),
      roundHundredths_le_100 _ (by linarith)⟩

/-- The patch row indices visited with the non-strict loop guard
`k * ps + ps ≤ h` are exactly `0 ≤ k < h / ps`. -/
lemma filter_mul_add_le_range (h ps : Nat) (hps : 0 < ps) :
    (Finset.range h).filter (fun k => k * ps + ps ≤ h) = Finset.range (h / ps) := by
  ext k
  simp only [Finset.mem_filter, Finset.mem_range]
  have e2 : k + 1 ≤ (k + 1) * ps := Nat.le_mul_of_pos_right _ hps
  rw [Nat.succ_mul] at e2
  show (k < h ∧ k * ps + ps ≤ h) ↔ k + 1 ≤ h / ps
  rw [Nat.le_div_iff_mul_le hps, Nat.succ_mul]
  set M := k * ps
  omega

/-- The patch row indices visited with the strict loop guard
`k * ps + ps < h` are exactly `0 ≤ k < (h - 1) / ps`. -/
lemma filter_mul_add_lt_range (h ps : Nat) (hps : 0 < ps) :
    (Finset.range h).filter (fun k => k * ps + ps < h) =
      Finset.range ((h - 1) / ps) := by
  ext k
  simp only [Finset.mem_filter, Finset.mem_range]
  have e2 : k + 1 ≤ (k + 1) * ps := Nat.le_mul_of_pos_right _ hps
  rw [Nat.succ_mul] at e2
  show (k < h ∧ k * ps + ps < h) ↔ k + 1 ≤ (h - 1) / ps
  rw [Nat.le_div_iff_mul_le hps, Nat.succ_mul]
  set M := k * ps
  omega

/-! ## Claim theorems -/

attribute [local semireducible] Rat.add Rat.sub Rat.mul Rat.inv Rat.ofScientific

set_option maxRecDepth 20000

/-- C1.  The claim reads the recall as (distinct reference edge pixels
with at least one submission edge pixel within the tolerance box) ÷
(reference edge pixel count) — `recallSpec`.  The code instead adds only
the lexicographically first reference pixel found per submission pixel to
`matchedRef` (the scan short-circuits on `found`), so reference pixels
shadowed by an earlier neighbour are never counted.  Failing input:
7×7 maps, reference edges `(y,x) = (1,1)` and `(2,1)`, submission edge
`(1,1)`; both reference pixels lie within tolerance 3 of the submission
pixel, so the claim demands recall 1, but the code returns 1/2. -/
theorem contourRecall_counts_only_first_found :
    (contourF1 7 7
        (fun y x => (y = 1 ∧ x = 1) ∨ (y = 2 ∧ x = 1))
        (fun y x => y = 1 ∧ x = 1) 3).recallVal = 1 / 2 ∧
      recallSpec 7 7
        (fun y x => (y = 1 ∧ x = 1) ∨ (y = 2 ∧ x = 1))
        (fun y x => y = 1 ∧ x = 1) 3 = 1 := by
  constructor <;> decide

/-- C2 counterexample.  The claim mean ranges over every complete patch
that fits (`localSimilarityAllPatches`); the code's loop guard is the
strict `y + patchSize < h`, dropping the complete flush patches.  On a
pair of all-zero 32×16 buffers with patch size 16 the code visits no
patch at all (no 16-patch ends strictly before column 16) and returns 0,
while the claim's mean over the two complete patches is 1. -/
theorem localSimilarity_flush_patch_counterexample :
    localSimilarity 32 16 (fun _ _ => 0) (fun _ _ => 0) 16 = 0 ∧
      localSimilarityAllPatches 32 16 (fun _ _ => 0) (fun _ _ => 0) 16 = 1 := by
  constructor <;> decide

/-- C2 amended.  The local-similarity score is the arithmetic mean of
the per-patch scores over the patch indices `0 ≤ k < (dimension − 1) /
patchSize` — complete patches flush with the right or bottom edge are
dropped along with partial ones — and at the canonical 512 resolution
the row (and column) index set is `0 ≤ k < 31`, i.e. 31 × 31 = 961
patches, not 32 × 32 = 1024. -/
theorem localSimilarity_eq_truncMean (h w : Nat) (f g : Nat → Nat → ℚ)
    (ps : Nat) (hps : 0 < ps) :
    localSimilarity h w f g ps = localSimilarityTruncMean h w f g ps ∧
      (Finset.range 512).filter (fun ky => ky * 16 + 16 < 512) =
        Finset.range 31 := by
  constructor
  · simp only [localSimilarity, localSimilarityTruncMean]
    rw [filter_mul_add_lt_range h ps hps, filter_mul_add_lt_range w ps hps]
    simp [Finset.card_range]
  · rw [filter_mul_add_lt_range 512 16 (by norm_num)]

/-- Witness for C2's amended theorem at patch size 16 on all-zero 48×48
buffers. -/
theorem localSimilarity_eq_truncMean_witness :
    0 < 16 ∧
      (localSimilarity 48 48 (fun _ _ => 0) (fun _ _ => 0) 16 =
        localSimilarityTruncMean 48 48 (fun _ _ => 0) (fun _ _ => 0) 16 ∧
      (Finset.range 512).filter (fun ky => ky * 16 + 16 < 512) =
        Finset.range 31) :=
  ⟨by norm_num,
    localSimilarity_eq_truncMean 48 48 (fun _ _ => 0) (fun _ _ => 0) 16
      (by norm_num)⟩

/-- C3.  Comparing an image against itself does NOT give contour F1 = 1:
on the 8×8 grayscale buffer that is 0 on the square `3 ≤ y, x ≤ 4` and
255 elsewhere, the pipeline's own edge map (binarized Sobel) is a 4×4
block of edge pixels; in self-comparison each sketch pixel's scan
first finds the top-left edge pixel of its neighbourhood, so
`matchedRef` stays tiny (recall 1/16) and F1 = 2/17 ≠ 1 — the code
contradicts the spec's Identity property (and its own line-scenario
test), while both penalty factors do equal 1.0 on identity as claimed. -/
theorem identity_comparison_f1_below_one :
    (contourF1 8 8
        (sobelBin 8 8 (fun y x => if 3 ≤ y ∧ y ≤ 4 ∧ 3 ≤ x ∧ x ≤ 4 then 0 else 255))
        (sobelBin 8 8 (fun y x => if 3 ≤ y ∧ y ≤ 4 ∧ 3 ≤ x ∧ x ≤ 4 then 0 else 255))
        3).f1 ≠ 1 ∧
    (contourF1 8 8
        (sobelBin 8 8 (fun y x => if 3 ≤ y ∧ y ≤ 4 ∧ 3 ≤ x ∧ x ≤ 4 then 0 else 255))
        (sobelBin 8 8 (fun y x => if 3 ≤ y ∧ y ≤ 4 ∧ 3 ≤ x ∧ x ≤ 4 then 0 else 255))
        3).f1 = 2 / 17 ∧
    inkDensityPenalty 8 8
      (fun y x => if 3 ≤ y ∧ y ≤ 4 ∧ 3 ≤ x ∧ x ≤ 4 then 0 else 255)
      (fun y x => if 3 ≤ y ∧ y ≤ 4 ∧ 3 ≤ x ∧ x ≤ 4 then 0 else 255) = 1 ∧
    spatialExtraPenalty 8 8
      (fun y x => if 3 ≤ y ∧ y ≤ 4 ∧ 3 ≤ x ∧ x ≤ 4 then 0 else 255)
      (fun y x => if 3 ≤ y ∧ y ≤ 4 ∧ 3 ≤ x ∧ x ≤ 4 then 0 else 255) 32 = 1 := by
  refine ⟨by decide, by decide, by decide, by decide⟩

/-- C4.  In every difficulty tier the three weights sum to exactly 1. -/
theorem difficulty_weights_sum_to_one (d : Difficulty) :
    (DIFFICULTY_WEIGHTS d).contour + (DIFFICULTY_WEIGHTS d).keypoints +
      (DIFFICULTY_WEIGHTS d).localW = 1 := by
  cases d <;> norm_num [DIFFICULTY_WEIGHTS]

/-- C5.  The reported score is the difficulty-weighted sum of contour
F1, keypoint score and local similarity, multiplied by the ink-density
and spatial penalty factors, clamped to `[0, 1]`, expressed as a
percentage and rounded half-up to two decimals; the breakdown's
composite field repeats it.  (The code clamps only from above with
`Math.min(100, ·)`; the clamp from below is vacuous because the
composite is provably nonnegative, so the claim's two-sided clamp agrees
with the code.) -/
theorem computeScore_percentage_formula (rg sg : Nat → Nat → ℚ) (d : Difficulty) :
    (computeScore rg sg d).score =
      roundHundredths (100 * clamp01
        (((DIFFICULTY_WEIGHTS d).contour * contourScoreOf rg sg +
          (DIFFICULTY_WEIGHTS d).keypoints * kpScoreOf rg sg +
          (DIFFICULTY_WEIGHTS d).localW * localScoreOf rg sg) *
          inkDensityPenalty TARGET_SIZE TARGET_SIZE rg sg *
          spatialExtraPenalty TARGET_SIZE TARGET_SIZE rg sg 32)) ∧
    (computeScore rg sg d).compositePct = (computeScore rg sg d).score := by
  have hc0 : 0 ≤ compositeOf rg sg d := compositeOf_nonneg rg sg d
  have harg : min 100 (compositeOf rg sg d * 100) =
      100 * clamp01 (compositeOf rg sg d) := by
    rw [clamp01]
    rcases le_total (compositeOf rg sg d) 1 with hle | hge
    · rw [min_eq_right hle, max_eq_right hc0, min_eq_right (by linarith)]
      ring
    · rw [min_eq_left hge, max_eq_right zero_le_one, min_eq_left (by linarith)]
      ring
  constructor
  · show roundHundredths (min 100 (compositeOf rg sg d * 100)) =
      roundHundredths (100 * clamp01 (compositeOf rg sg d))
    rw [harg]
  · rfl

/-- C6.  The ink-density penalty factor is exactly as the claim words
it: factor 1 up to 1.2× the reference dark-pixel fraction, then the
absolute-coverage breakpoints 0.6/0.4/0.3 with factors 0.05/0.15/0.3,
then the excess-ink breakpoints 5/3/2 with factors 0.15/0.35/0.55 over
`excess = submission ÷ max(reference, 0.01)`, else
`max(0.4, 1 − (excess − 1.2)·0.4)`. -/
theorem inkDensityPenalty_matches_spec (h w : Nat) (f g : Nat → Nat → ℚ) :
    inkDensityPenalty h w f g = inkDensityPenaltySpec h w f g := by
  simp only [inkDensityPenalty, inkDensityPenaltySpec]
  rw [mul_comm ((darkCount h w f : ℚ) / ((h * w : Nat) : ℚ)) 1.2]

/-- C7.  The spatial extra-ink penalty is exactly as the claim words it
(count complete 32-patches that are near-empty in the reference but
inked in the submission, factor `max(0.7, 1 − extra/total·1.5)`), it is
never below 0.7, never above 1, and it is exactly 1 when no complete
patch fits. -/
theorem spatialExtraPenalty_matches_spec (h w : Nat) (f g : Nat → Nat → ℚ)
    (ps : Nat) (hps : 0 < ps) :
    spatialExtraPenalty h w f g ps = spatialExtraPenaltySpec h w f g ps ∧
    7 / 10 ≤ spatialExtraPenalty h w f g ps ∧
    spatialExtraPenalty h w f g ps ≤ 1 ∧
    ((h / ps) * (w / ps) = 0 → spatialExtraPenalty h w f g ps = 1) := by
  have heq : spatialExtraPenalty h w f g ps = spatialExtraPenaltySpec h w f g ps := by
    simp only [spatialExtraPenalty, spatialExtraPenaltySpec]
    rw [filter_mul_add_le_range h ps hps, filter_mul_add_le_range w ps hps]
    simp [Finset.card_range]
  have hb := spatialExtraPenalty_bounds h w f g ps
  refine ⟨heq, hb.1, hb.2, ?_⟩
  intro hzero
  rw [heq]
  simp only [spatialExtraPenaltySpec]
  rw [if_pos hzero]

/-- Witness for C7 at patch size 32 on 8×8 all-white buffers (no
complete patch fits, so the factor is 1). -/
theorem spatialExtraPenalty_matches_spec_witness :
    0 < 32 ∧
      (spatialExtraPenalty 8 8 (fun _ _ => 255) (fun _ _ => 255) 32 =
          spatialExtraPenaltySpec 8 8 (fun _ _ => 255) (fun _ _ => 255) 32 ∧
        7 / 10 ≤ spatialExtraPenalty 8 8 (fun _ _ => 255) (fun _ _ => 255) 32 ∧
        spatialExtraPenalty 8 8 (fun _ _ => 255) (fun _ _ => 255) 32 ≤ 1 ∧
        ((8 / 32) * (8 / 32) = 0 →
          spatialExtraPenalty 8 8 (fun _ _ => 255) (fun _ _ => 255) 32 = 1)) :=
  ⟨by norm_num,
    spatialExtraPenalty_matches_spec 8 8 (fun _ _ => 255) (fun _ _ => 255) 32
      (by norm_num)⟩

/-- C8.  The degenerate-input guards: an empty submission edge set gives
precision 0, an empty reference edge set gives recall 1, F1 is 0 when
precision and recall are both 0, and an empty reference keypoint list
gives keypoint score exactly 0.5 — each a definite rational, never an
undefined division. -/
theorem degenerate_input_guards :
    (∀ h w rb sb tol, edgeCount h w sb = 0 →
      (contourF1 h w rb sb tol).precision = 0) ∧
    (∀ h w rb sb tol, edgeCount h w rb = 0 →
      (contourF1 h w rb sb tol).recallVal = 1) ∧
    (∀ h w rb sb tol, (contourF1 h w rb sb tol).precision = 0 →
      (contourF1 h w rb sb tol).recallVal = 0 →
      (contourF1 h w rb sb tol).f1 = 0) ∧
    (∀ ks size, keypointMatchScore [] ks size = 1 / 2) := by
  refine ⟨?_, ?_, ?_, ?_⟩
  · intro h w rb sb tol hempty
    show contourPrecision h w rb sb tol = 0
    rw [contourPrecision, if_pos hempty]
  · intro h w rb sb tol hempty
    show contourRecall h w rb sb tol = 1
    rw [contourRecall, if_pos hempty]
  · intro h w rb sb tol hp hr
    have hp2 : contourPrecision h w rb sb tol = 0 := hp
    have hr2 : contourRecall h w rb sb tol = 0 := hr
    show (if contourPrecision h w rb sb tol + contourRecall h w rb sb tol = 0
      then (0 : ℚ)
      else 2 * contourPrecision h w rb sb tol * contourRecall h w rb sb tol /
        (contourPrecision h w rb sb tol + contourRecall h w rb sb tol)) = 0
    rw [if_pos (by rw [hp2, hr2]; norm_num)]
  · intro ks size
    rw [keypointMatchScore, if_pos rfl]
    norm_num

/-- Witness for C8 on concrete degenerate inputs: 2×2 all-false edge
maps and the empty keypoint list. -/
theorem degenerate_input_guards_witness :
    (edgeCount 2 2 (fun _ _ => false) = 0 ∧
      (contourF1 2 2 (fun _ _ => false) (fun _ _ => false) 3).precision = 0) ∧
    (contourF1 2 2 (fun _ _ => false) (fun _ _ => false) 3).recallVal = 1 ∧
    (contourF1 2 2 (fun _ _ => true) (fun _ _ => false) 3).f1 = 0 ∧
    keypointMatchScore [] [((1 : ℚ), (1 : ℚ))] 512 = 1 / 2 :=
  ⟨⟨by decide, degenerate_input_guards.1 2 2 (fun _ _ => false)
      (fun _ _ => false) 3 (by decide)⟩,
    degenerate_input_guards.2.1 2 2 (fun _ _ => false) (fun _ _ => false) 3
      (by decide),
    degenerate_input_guards.2.2.1 2 2 (fun _ _ => true) (fun _ _ => false) 3
      (by decide) (by decide),
    degenerate_input_guards.2.2.2 [((1 : ℚ), (1 : ℚ))] 512⟩

/-- C9 counterexample.  The ink-density "penalty" factor can exceed 1:
on a 10×10 all-white reference and a submission with a single dark pixel
the dark fractions are 0 and 1/100, the excess is 1, and the graduated
branch returns `max(0.4, 1 − (1 − 1.2)·0.4) = 1.08 > 1`. -/
theorem inkDensityPenalty_exceeds_one :
    1 < inkDensityPenalty 10 10 (fun _ _ => 255)
      (fun y x => if y = 0 ∧ x = 0 then 0 else 255) := by
  decide

/-- C9 amended.  Contour precision, recall and F1, the keypoint score
and the local similarity all lie in `[0, 1]`; the spatial penalty factor
lies in `[0.7, 1]`; the ink-density factor is positive and bounded by
1.48 but is NOT bounded by 1; and the returned score and all four
breakdown percentages still lie in `[0, 100]` (the final `min(100, ·)`
clamp absorbs the over-unit ink factor). -/
theorem score_components_bounded :
    (∀ h w rb sb tol,
      (0 ≤ (contourF1 h w rb sb tol).precision ∧
        (contourF1 h w rb sb tol).precision ≤ 1) ∧
      (0 ≤ (contourF1 h w rb sb tol).recallVal ∧
        (contourF1 h w rb sb tol).recallVal ≤ 1) ∧
      (0 ≤ (contourF1 h w rb sb tol).f1 ∧ (contourF1 h w rb sb tol).f1 ≤ 1)) ∧
    (∀ kr ks size, 0 ≤ keypointMatchScore kr ks size ∧
      keypointMatchScore kr ks size ≤ 1) ∧
    (∀ h w f g ps, 0 ≤ localSimilarity h w f g ps ∧
      localSimilarity h w f g ps ≤ 1) ∧
    (∀ h w f g, 0 < inkDensityPenalty h w f g ∧
      inkDensityPenalty h w f g ≤ 37 / 25) ∧
    (∀ h w f g ps, 7 / 10 ≤ spatialExtraPenalty h w f g ps ∧
      spatialExtraPenalty h w f g ps ≤ 1) ∧
    (∀ rg sg d,
      (0 ≤ (computeScore rg sg d).score ∧ (computeScore rg sg d).score ≤ 100) ∧
      (0 ≤ (computeScore rg sg d).contourPct ∧
        (computeScore rg sg d).contourPct ≤ 100) ∧
      (0 ≤ (computeScore rg sg d).keypointPct ∧
        (computeScore rg sg d).keypointPct ≤ 100) ∧
      (0 ≤ (computeScore rg sg d).localPct ∧
        (computeScore rg sg d).localPct ≤ 100) ∧
      (0 ≤ (computeScore rg sg d).compositePct ∧
        (computeScore rg sg d).compositePct ≤ 100)) :=
  ⟨fun h w rb sb tol => contourF1_bounds h w rb sb tol,
    fun kr ks size => keypointMatchScore_bounds kr ks size,
    fun h w f g ps => ⟨localSimilarity_nonneg h w f g ps,
      localSimilarity_le_one h w f g ps⟩,
    fun h w f g => inkDensityPenalty_bounds h w f g,
    fun h w f g ps => spatialExtraPenalty_bounds h w f g ps,
    fun rg sg d => computeScore_output_bounds rg sg d⟩

/-- C10.  Keypoint matching has no exclusivity: every reference keypoint
is matched independently against the nearest submission keypoint, so a
single submission keypoint whose (squared) distance to every reference
keypoint is within the tolerance serves as the match of all of them and
the score is 1. -/
theorem keypoint_match_not_exclusive (kpRef : List (ℚ × ℚ)) (s : ℚ × ℚ)
    (size : ℚ) (hne : kpRef ≠ [])
    (hclose : ∀ p ∈ kpRef,
      (p.1 - s.1) ^ 2 + (p.2 - s.2) ^ 2 ≤ (size * 0.05) ^ 2) :
    keypointMatchScore kpRef [s] size = 1 := by
  simp only [keypointMatchScore]
  rw [if_neg hne]
  have hcount : (kpRef.countP (fun p => [s].any (fun q =>
      decide ((p.1 - q.1) ^ 2 + (p.2 - q.2) ^ 2 ≤ (size * 0.05) ^ 2)))) =
      kpRef.length := by
    apply List.countP_eq_length.2
    intro p hp
    simp only [List.any_cons, List.any_nil, Bool.or_false, decide_eq_true_eq]
    exact hclose p hp
  rw [hcount]
  have hlen : (0 : ℚ) < kpRef.length := by
    exact_mod_cast List.length_pos.2 hne
  exact div_self hlen.ne.symm

/-- Witness for C10: two reference keypoints both within the 512-canvas
tolerance (maximum distance 25.6) of the single submission keypoint
`(5, 5)` give score 1. -/
theorem keypoint_match_not_exclusive_witness :
    keypointMatchScore [((0 : ℚ), (0 : ℚ)), ((10 : ℚ), (10 : ℚ))]
      [((5 : ℚ), (5 : ℚ))] 512 = 1 :=
  keypoint_match_not_exclusive _ _ _ (by decide) (by decide)

end DrawingTool
